import Mathlib

/-!
Verification of the inventory dashboard's clean/transform/aggregate pipeline
(`src/app.py`, "View inventory" branch).

The pipeline works on a pandas DataFrame built from Mongo documents
(`raw_docs_to_df`, lines 163-175).  We embed such a frame as a `List RawDoc`:
each document carries an optional cell per known field (`none` = the key is
absent from the document).  A pandas column exists in the frame iff some
document carries the key (even with a `None` value), which the embedding
computes with `colPresent`.

Cell contents are modelled at the granularity the coercions distinguish:
`RVal.num q` is a cell `pd.to_numeric` parses to the number `q` (numbers and
numeric strings), `RVal.date d` is a cell `pd.to_datetime` parses to calendar
day `d` (dates and date strings; days are integers, as in the app where all
stored dates are whole-day ISO strings), `RVal.str s` is text neither parser
accepts, and `RVal.null` is an explicit stored `None` (a NaN cell).
Machine floats are modelled as exact rationals `ℚ`; none of the verified
claims hinges on rounding.
-/

namespace InventoryApp

/-- A raw cell value as stored in a document. -/
inductive RVal where
  | num  (q : ℚ)
  | date (d : ℤ)
  | str  (s : String)
  | null
deriving DecidableEq, Repr

/-- One Mongo document after `raw_docs_to_df`'s key sanitisation (`_id`
renamed to `id`, lines 169-172).  `none` = the key is absent. -/
structure RawDoc where
  sku : Option RVal := none
  name : Option RVal := none
  category : Option RVal := none
  quantity : Option RVal := none
  price : Option RVal := none
  supplier : Option RVal := none
  last_restock : Option RVal := none
  id : Option RVal := none
deriving DecidableEq, Repr

/-- `pd.to_numeric(·, errors='coerce')` on one cell: numbers (and numeric
strings, modelled by `RVal.num`) parse, everything else coerces to NaN
(`none`). -/
def toNumeric : RVal → Option ℚ
  | .num q => some q
  | _ => none

/-- `pd.to_datetime(·, errors='coerce')` on one cell: date-like cells
(`RVal.date`) parse to their day number; a stored number is read as
nanoseconds since the epoch and lands on day `⌊q / 86400e9⌋`; text that is
not date-like and explicit nulls coerce to NaT (`none`). -/
def toDatetime : RVal → Option ℤ
  | .date d => some d
  | .num q => some ⌊q / 86400000000000⌋
  | _ => none

/-- `astype(int)` on a float cell truncates toward zero. -/
def ratTrunc (q : ℚ) : ℤ := if 0 ≤ q then ⌊q⌋ else ⌈q⌉

/-- The NaN-normalised content of one cell of a present column: an absent key
or an explicit stored `None` both show up as NaN (`none`). -/
def cell : Option RVal → Option RVal
  | some .null => none
  | some v => some v
  | none => none

/-- A pandas column exists in the frame iff some document carries the key. -/
def colPresent (f : RawDoc → Option RVal) (docs : List RawDoc) : Bool :=
  docs.any fun d => (f d).isSome

/-- One row of the cleaned/enriched frame produced by `clean_and_transform`
(lines 177-202).  `quantity` is an `ℤ` (int column), `price`/`value` exact
rationals, `last_restock` `none` = NaT, `name`/`sku` `none` = a NaN left by
the empty-Series assignment (see `normRow`). -/
structure Row where
  sku : Option RVal
  name : Option RVal
  category : Option RVal
  quantity : ℤ
  price : ℚ
  supplier : Option RVal
  last_restock : Option ℤ
  id : Option RVal
  value : ℚ
  days_since_restock : ℤ
deriving DecidableEq, Repr

/-- The per-row effect of `clean_and_transform` (lines 181-201).

* `quantity`: `pd.to_numeric(...).fillna(0).astype(int)` when the column
  exists, the constant column `0` otherwise — row-wise the two branches
  agree (an absent column means every cell is `none`, so the coercion also
  yields `0`), so a single expression covers both.
* `price`, `last_restock`: same collapsing of the two source branches.
* `name`/`sku` (lines 195-196): when the column exists,
  `fillna('Unknown')` / `fillna('')` replaces NaN cells; when it does not,
  `df.get` returns the *empty* default Series, whose `fillna` is still
  empty, and assigning it aligns on the index — every row gets NaN
  (`none`), not the default string.
* `value = quantity * price` (line 198) and
  `days_since_restock = (today - last_restock).dt.days` with NaT filled by
  `-1` (lines 199-201). -/
def normRow (namePresent skuPresent : Bool) (today : ℤ) (d : RawDoc) : Row :=
  let q : ℤ := ((d.quantity.bind toNumeric).map ratTrunc).getD 0
  let p : ℚ := (d.price.bind toNumeric).getD 0
  let lr : Option ℤ := d.last_restock.bind toDatetime
  { sku := if skuPresent then some ((cell d.sku).getD (.str "")) else none
    name := if namePresent then some ((cell d.name).getD (.str "Unknown")) else none
    category := cell d.category
    quantity := q
    price := p
    supplier := cell d.supplier
    last_restock := lr
    id := cell d.id
    value := (q : ℚ) * p
    days_since_restock := match lr with
      | some d0 => today - d0
      | none => -1 }

/-- `clean_and_transform` (lines 177-202): an empty frame is returned as is
(which the row-wise map also yields), otherwise every row is coerced and
enriched.  `today` is the ambient `datetime.today()` (line 199), passed
explicitly. -/
def clean_and_transform (today : ℤ) (docs : List RawDoc) : List Row :=
  docs.map (normRow (colPresent RawDoc.name docs) (colPresent RawDoc.sku docs) today)

/-- The cleaned frame read back as raw cells, for feeding the pipeline its
own output (the second `clean_and_transform` run of the idempotence claim,
and the caller's frame after the in-place column assignments of
lines 181-201).  `quantity`/`price` become numeric cells, `last_restock`
a date cell (NaT stays a NaN cell — the first run always creates the
column, so it exists in the round-two frame); a NaN `name`/`sku` (left by
the empty-Series assignment) likewise sits in a now-existing column, hence
`some .null` rather than `none`.  The derived `value` and
`days_since_restock` columns are not carried: a second run overwrites both
without reading them. -/
def rowToDoc (r : Row) : RawDoc :=
  { sku := match r.sku with
      | some v => some v
      | none => some .null
    name := match r.name with
      | some v => some v
      | none => some .null
    category := r.category
    quantity := some (.num (r.quantity : ℚ))
    price := some (.num r.price)
    supplier := r.supplier
    last_restock := match r.last_restock with
      | some d => some (.date d)
      | none => some .null
    id := r.id }

/-- The caller's frame after `clean_and_transform` returns: the function
assigns every computed column into the frame it was passed (lines 181-201
mutate `df` in place; the call site `df = clean_and_transform(df_raw)` at
line 232 therefore also rewrites `df_raw`), so afterwards the caller's
table holds exactly the transformed rows.  An empty frame is returned at
line 180 before any assignment, hence stays untouched. -/
def ct_final_arg (today : ℤ) (docs : List RawDoc) : List RawDoc :=
  (clean_and_transform today docs).map rowToDoc

/-- One output row of the category rollup `cat_agg` (line 285). -/
structure CatGroup where
  category : RVal
  total_qty : ℤ
  total_value : ℚ
deriving DecidableEq, Repr

/-- `df.groupby('category').agg(total_qty=..., total_value=...)` (line 285).
pandas `groupby` keeps its default `dropna=True`: rows whose category cell
is NaN (`none`) belong to no group.  The group keys are the distinct
non-NaN category values; pandas emits them sorted, the embedding in
first-seen order — no verified claim depends on the group order. -/
def cat_agg (rows : List Row) : List CatGroup :=
  ((rows.filterMap Row.category).dedup).map fun k =>
    { category := k
      total_qty := ((rows.filter fun r => r.category = some k).map Row.quantity).sum
      total_value := ((rows.filter fun r => r.category = some k).map Row.value).sum }

/-- The comparison `sort_values('quantity')` sorts by. -/
def qtyLE (a b : Row) : Prop := a.quantity ≤ b.quantity

instance : DecidableRel qtyLE := fun a b => inferInstanceAs (Decidable (a.quantity ≤ b.quantity))

instance : IsTotal Row qtyLE := ⟨fun a b => le_total a.quantity b.quantity⟩

instance : IsTrans Row qtyLE := ⟨fun _ _ _ h1 h2 => le_trans h1 h2⟩

/-- The low-stock table (line 327):
`df[df['quantity'] <= low_stock_thresh].sort_values('quantity').head(20)`.
The boolean mask keeps the frame order, so the sort runs on the filtered
rows in order.  `sort_values` is embedded as insertion sort; the verified
properties (length, sortedness, membership, and the permutation when at
most 20 rows pass the filter) hold for any sorting algorithm, so nothing
below depends on how the library breaks ties. -/
def low_stock (thresh : ℤ) (rows : List Row) : List Row :=
  (List.insertionSort qtyLE (rows.filter fun r => r.quantity ≤ thresh)).take 20

/-- A column name of the cleaned frame. -/
inductive Col where
  | sku | name | category | quantity | price | supplier | last_restock | id
  | value | days_since_restock
deriving DecidableEq, Repr

/-- The keys of one document, in the key order the app's own writers use:
the seed data (lines 61-80) and the add form (lines 347-355) insert
`sku, name, category, quantity, price, supplier, last_restock`, and
`raw_docs_to_df` appends `id` last when sanitising `_id` (lines 170-172).
The embedding covers frames built from such documents. -/
def docKeys (d : RawDoc) : List Col :=
  (if d.sku.isSome then [Col.sku] else []) ++
  (if d.name.isSome then [Col.name] else []) ++
  (if d.category.isSome then [Col.category] else []) ++
  (if d.quantity.isSome then [Col.quantity] else []) ++
  (if d.price.isSome then [Col.price] else []) ++
  (if d.supplier.isSome then [Col.supplier] else []) ++
  (if d.last_restock.isSome then [Col.last_restock] else []) ++
  (if d.id.isSome then [Col.id] else [])

/-- `pd.DataFrame(list_of_dicts)` column order: union of the documents'
keys in first-seen order. -/
def frameCols (docs : List RawDoc) : List Col :=
  docs.foldl (fun acc d => acc ++ (docKeys d).filter (fun c => ¬ c ∈ acc)) []

/-- Column assignment `df[c] = ...`: keeps the position of an existing
column, appends a new one at the end. -/
def assignCol (l : List Col) (c : Col) : List Col :=
  if c ∈ l then l else l ++ [c]

/-- The column order of the frame `clean_and_transform` leaves behind: the
raw columns, then the columns the assignments of lines 181-201 create when
absent, in assignment order (`quantity`, `price`, `last_restock`, `name`,
`sku`), then the always-new `value` and `days_since_restock`. -/
def ctCols (docs : List RawDoc) : List Col :=
  if docs.isEmpty then [] else
    [Col.quantity, Col.price, Col.last_restock, Col.name, Col.sku,
     Col.value, Col.days_since_restock].foldl assignCol (frameCols docs)

/-- The fixed display/export column order of line 234. -/
def fixedColumnOrder : List Col :=
  [.sku, .name, .category, .quantity, .price, .value, .supplier,
   .last_restock, .days_since_restock, .id]

/-- `display_cols` (line 234): the fixed order restricted to the columns the
cleaned frame has. -/
def displayCols (docs : List RawDoc) : List Col :=
  fixedColumnOrder.filter fun c => c ∈ ctCols docs

/-- The header row of `dataframe_to_csv_bytes_local` (lines 204-208): an
empty frame yields empty bytes and no header; otherwise `to_csv` writes the
frame's columns, in the frame's column order, as the header.  Only the
header is modelled; `n` is the frame's row count. -/
def exportHeader (cols : List Col) (n : ℕ) : Option (List Col) :=
  if n = 0 then none else some cols

/-- Header of the filtered-view export (line 239):
`dataframe_to_csv_bytes_local(df[display_cols])`. -/
def filteredExportHeader (docs : List RawDoc) : Option (List Col) :=
  exportHeader (displayCols docs) docs.length

/-- Header of the full-inventory export (lines 249-251):
`dataframe_to_csv_bytes_local(df_all)` — the whole cleaned frame, with no
column restriction or reordering. -/
def fullExportHeader (docs : List RawDoc) : Option (List Col) :=
  exportHeader (ctCols docs) docs.length

/-! ### Basic lemmas about the embedding -/

lemma ratTrunc_intCast (n : ℤ) : ratTrunc (n : ℚ) = n := by
  unfold ratTrunc
  split_ifs with h
  · exact Int.floor_intCast n
  · exact Int.ceil_intCast n

lemma ratTrunc_nonneg {q : ℚ} (h : 0 ≤ q) : 0 ≤ ratTrunc q := by
  unfold ratTrunc
  rw [if_pos h]
  exact Int.floor_nonneg.mpr h

lemma length_clean_and_transform (today : ℤ) (docs : List RawDoc) :
    (clean_and_transform today docs).length = docs.length := by
  simp [clean_and_transform]

lemma get_clean_and_transform (today : ℤ) (docs : List RawDoc) (i : ℕ)
    (h1 : i < docs.length) (h2 : i < (clean_and_transform today docs).length) :
    (clean_and_transform today docs).get ⟨i, h2⟩ =
      normRow (colPresent RawDoc.name docs) (colPresent RawDoc.sku docs) today
        (docs.get ⟨i, h1⟩) := by
  simp [clean_and_transform, List.get_eq_getElem, List.getElem_map]

/-! ### C4: unknown `last_restock` gets the sentinel -/

/-- C4.  Sentinel correctness: whenever a row's `last_restock` cell does not
parse as a date (the key is absent, the value is an explicit null, or it is
text `pd.to_datetime` cannot parse), the corresponding output row has
`days_since_restock = -1`, never a computed day count. -/
theorem sentinel_unknown (today : ℤ) (docs : List RawDoc) (i : ℕ)
    (h1 : i < docs.length) (h2 : i < (clean_and_transform today docs).length)
    (hu : (docs.get ⟨i, h1⟩).last_restock.bind toDatetime = none) :
    ((clean_and_transform today docs).get ⟨i, h2⟩).days_since_restock = -1 := by
  rw [get_clean_and_transform today docs i h1 h2]
  rw [List.get_eq_getElem] at hu
  simp [normRow, hu]

/-- Witness for C4: a document whose `last_restock` is unparseable text is
assigned the sentinel. -/
theorem sentinel_unknown_witness :
    ((clean_and_transform 7 [{ last_restock := some (.str "not a date") }]).get
        ⟨0, by simp [clean_and_transform]⟩).days_since_restock = -1 :=
  sentinel_unknown 7 [{ last_restock := some (.str "not a date") }] 0
    (by simp) (by simp [clean_and_transform]) (by simp [toDatetime])

/-! ### C5: `value = quantity * price` -/

/-- C5.  Enricher invariant: every row of the cleaned/enriched frame has
`value` exactly equal to the product of its coerced `quantity` and `price`
(line 198 computes `df['value'] = df['quantity'] * df['price']` after the
coercions of lines 181-188). -/
theorem enricher_value_eq (today : ℤ) (docs : List RawDoc) :
    ∀ r ∈ clean_and_transform today docs, r.value = (r.quantity : ℚ) * r.price := by
  intro r hr
  rcases List.mem_map.mp hr with ⟨d, _, rfl⟩
  simp [normRow]

/-- Witness for C5 at the first row of a concrete frame. -/
theorem enricher_value_eq_witness :
    ((clean_and_transform 0
        [{ quantity := some (.num 5), price := some (.num 10) },
         { quantity := some .null, price := some (.str "bad") }]).get
        ⟨0, by simp [clean_and_transform]⟩).value
      = (((clean_and_transform 0
        [{ quantity := some (.num 5), price := some (.num 10) },
         { quantity := some .null, price := some (.str "bad") }]).get
        ⟨0, by simp [clean_and_transform]⟩).quantity : ℚ)
        * ((clean_and_transform 0
        [{ quantity := some (.num 5), price := some (.num 10) },
         { quantity := some .null, price := some (.str "bad") }]).get
        ⟨0, by simp [clean_and_transform]⟩).price :=
  enricher_value_eq 0
    [{ quantity := some (.num 5), price := some (.num 10) },
     { quantity := some .null, price := some (.str "bad") }] _
    (List.get_mem _ _ _)

/-! ### C10: future restock dates give negative day counts -/

/-- C10.  A `last_restock` that parses to a day strictly later than `today`
yields a negative `days_since_restock`; one day in the future yields exactly
`-1`, the same value as the unknown sentinel. -/
theorem future_restock_negative (today : ℤ) (docs : List RawDoc) (i : ℕ)
    (h1 : i < docs.length) (h2 : i < (clean_and_transform today docs).length)
    (d : ℤ) (hp : (docs.get ⟨i, h1⟩).last_restock.bind toDatetime = some d)
    (hf : today < d) :
    ((clean_and_transform today docs).get ⟨i, h2⟩).days_since_restock < 0 ∧
    (d = today + 1 →
      ((clean_and_transform today docs).get ⟨i, h2⟩).days_since_restock = -1) := by
  rw [get_clean_and_transform today docs i h1 h2]
  refine ⟨?_, ?_⟩
  · simp only [normRow, hp]
    omega
  · intro hd
    simp only [normRow, hp, hd]
    omega

/-- Witness for C10: with `today = 100` and a restock date on day `101`, the
computed count is `-1`, indistinguishable from the sentinel. -/
theorem future_restock_negative_witness :
    ((clean_and_transform 100 [{ last_restock := some (.date 101) }]).get
        ⟨0, by simp [clean_and_transform]⟩).days_since_restock < 0 ∧
    ((101 : ℤ) = 100 + 1 →
      ((clean_and_transform 100 [{ last_restock := some (.date 101) }]).get
          ⟨0, by simp [clean_and_transform]⟩).days_since_restock = -1) :=
  future_restock_negative 100 [{ last_restock := some (.date 101) }] 0
    (by simp) (by simp [clean_and_transform]) 101 (by simp [toDatetime]) (by omega)

/-! ### C2: Normalizer output shape -/

/-- C2 counterexample.  A stored quantity of `-5` passes through the
coercion `to_numeric(...).fillna(0).astype(int)` unchanged: nothing clamps
negative values, so the output row violates `quantity >= 0` (and, the input
having no `name`/`sku` column, both fields are also left missing). -/
theorem normalizer_shape_cex :
    ¬ ∀ r ∈ clean_and_transform 0 [{ quantity := some (.num (-5)) }],
        0 ≤ r.quantity ∧ 0 ≤ r.price ∧ r.name.isSome ∧ r.sku.isSome := by
  decide

/-- C2 amended.  The Normalizer always populates `quantity` and `price`
(unparseable or absent cells become `0`); `name` and `sku` are non-missing
whenever the respective column exists in the input frame; and `quantity`
and `price` are non-negative unless the stored cell itself parses to a
negative number — coercion supplies non-negative defaults but does not
clamp stored negatives. -/
theorem normalizer_shape_amended (today : ℤ) (docs : List RawDoc) (i : ℕ)
    (h1 : i < docs.length) (h2 : i < (clean_and_transform today docs).length) :
    (colPresent RawDoc.name docs = true →
      (((clean_and_transform today docs).get ⟨i, h2⟩).name).isSome = true) ∧
    (colPresent RawDoc.sku docs = true →
      (((clean_and_transform today docs).get ⟨i, h2⟩).sku).isSome = true) ∧
    ((docs.get ⟨i, h1⟩).quantity.bind toNumeric = none →
      ((clean_and_transform today docs).get ⟨i, h2⟩).quantity = 0) ∧
    (∀ q, (docs.get ⟨i, h1⟩).quantity.bind toNumeric = some q → 0 ≤ q →
      0 ≤ ((clean_and_transform today docs).get ⟨i, h2⟩).quantity) ∧
    ((docs.get ⟨i, h1⟩).price.bind toNumeric = none →
      ((clean_and_transform today docs).get ⟨i, h2⟩).price = 0) ∧
    (∀ q, (docs.get ⟨i, h1⟩).price.bind toNumeric = some q → 0 ≤ q →
      0 ≤ ((clean_and_transform today docs).get ⟨i, h2⟩).price) := by
  rw [get_clean_and_transform today docs i h1 h2]
  refine ⟨fun hn => ?_, fun hs => ?_, fun hq => ?_, fun q hq hq0 => ?_,
    fun hp => ?_, fun q hp hp0 => ?_⟩
  · simp [normRow, hn]
  · simp [normRow, hs]
  · rw [List.get_eq_getElem] at hq
    simp [normRow, hq]
  · rw [List.get_eq_getElem] at hq
    simpa [normRow, hq] using ratTrunc_nonneg hq0
  · rw [List.get_eq_getElem] at hp
    simp [normRow, hp]
  · rw [List.get_eq_getElem] at hp
    simpa [normRow, hp] using hp0

/-- Witness for C2 amended: at a well-formed document with stored quantity
`2`, the non-negativity clause applies and the coerced quantity is
non-negative. -/
theorem normalizer_shape_amended_witness :
    0 ≤ ((clean_and_transform 0
        [{ name := some (.str "Pen"), sku := some (.str "SKU1"),
           quantity := some (.num 2), price := some (.num 3) }]).get
        ⟨0, by simp [clean_and_transform]⟩).quantity :=
  (normalizer_shape_amended 0
      [{ name := some (.str "Pen"), sku := some (.str "SKU1"),
         quantity := some (.num 2), price := some (.num 3) }] 0
      (by simp) (by simp [clean_and_transform])).2.2.2.1 2
    (by simp [toNumeric]) (by norm_num)

/-! ### C7: idempotence of the Normalizer -/

lemma cell_cell (x : Option RVal) : cell (cell x) = cell x := by
  rcases x with _ | v
  · rfl
  · cases v <;> rfl

lemma cell_getD_str (x : Option RVal) (s : String) :
    cell (some ((cell x).getD (.str s))) = some ((cell x).getD (.str s)) := by
  rcases x with _ | v
  · rfl
  · cases v <;> rfl

lemma rowToDoc_name_isSome (r : Row) : (rowToDoc r).name.isSome = true := by
  rcases r with ⟨_, n, _, _, _, _, _, _, _, _⟩
  cases n <;> rfl

lemma rowToDoc_sku_isSome (r : Row) : (rowToDoc r).sku.isSome = true := by
  rcases r with ⟨s, _, _, _, _, _, _, _, _, _⟩
  cases s <;> rfl

/-- Re-running the row transformation on its own output row changes nothing,
provided both runs see the `name` and `sku` columns as present. -/
lemma normRow_rowToDoc (today : ℤ) (d : RawDoc) :
    normRow true true today (rowToDoc (normRow true true today d)) =
      normRow true true today d := by
  rcases d with ⟨s, n, c, q, p, su, lr, i⟩
  cases hlr : lr.bind toDatetime with
  | none =>
      simp only [normRow, rowToDoc, hlr]
      simp [toNumeric, toDatetime, ratTrunc_intCast, cell_cell, cell_getD_str]
  | some d0 =>
      simp only [normRow, rowToDoc, hlr]
      simp [toNumeric, toDatetime, ratTrunc_intCast, cell_cell, cell_getD_str]

/-- C7 counterexample.  The Normalizer is not idempotent: on an input frame
with no `name` (or `sku`) column, the first run assigns the empty default
Series, leaving every `name` cell NaN, while a second run — now seeing a
`name` column — fills those NaN cells with `"Unknown"`, so running twice
differs from running once. -/
theorem normalizer_idempotent_cex :
    clean_and_transform 0
        ((clean_and_transform 0 [{ quantity := some (.num 1) }]).map rowToDoc)
      ≠ clean_and_transform 0 [{ quantity := some (.num 1) }] := by
  decide

/-- C7 amended.  The Normalizer is idempotent on every input frame whose
`name` and `sku` columns are present (some document carries each key):
feeding the cleaned frame back through `clean_and_transform` reproduces it
exactly.  Only the absent-`name`/`sku`-column case breaks the fixed point. -/
theorem normalizer_idempotent (today : ℤ) (docs : List RawDoc)
    (hn : colPresent RawDoc.name docs = true)
    (hs : colPresent RawDoc.sku docs = true) :
    clean_and_transform today ((clean_and_transform today docs).map rowToDoc)
      = clean_and_transform today docs := by
  have hne : docs ≠ [] := by
    intro h
    rw [h] at hn
    simp [colPresent] at hn
  have hn2 : colPresent RawDoc.name ((clean_and_transform today docs).map rowToDoc)
      = true := by
    rcases docs with _ | ⟨d, t⟩
    · exact absurd rfl hne
    · simp only [clean_and_transform, List.map_cons, colPresent, List.any_cons]
      rw [rowToDoc_name_isSome]
      simp
  have hs2 : colPresent RawDoc.sku ((clean_and_transform today docs).map rowToDoc)
      = true := by
    rcases docs with _ | ⟨d, t⟩
    · exact absurd rfl hne
    · simp only [clean_and_transform, List.map_cons, colPresent, List.any_cons]
      rw [rowToDoc_sku_isSome]
      simp
  unfold clean_and_transform at hn2 hs2 ⊢
  rw [hn, hs] at hn2 hs2 ⊢
  rw [hn2, hs2, List.map_map, List.map_map]
  exact List.map_congr_left fun d _ => normRow_rowToDoc today d

/-- Witness for C7 amended: a frame carrying `name` and `sku` is a fixed
point of the Normalizer. -/
theorem normalizer_idempotent_witness :
    clean_and_transform 0
        ((clean_and_transform 0
          [{ name := some (.str "Pen"), sku := some (.str "SKU1"),
             quantity := some (.num 4), price := some (.num 2) }]).map rowToDoc)
      = clean_and_transform 0
          [{ name := some (.str "Pen"), sku := some (.str "SKU1"),
             quantity := some (.num 4), price := some (.num 2) }] :=
  normalizer_idempotent 0
    [{ name := some (.str "Pen"), sku := some (.str "SKU1"),
       quantity := some (.num 4), price := some (.num 2) }]
    (by simp [colPresent]) (by simp [colPresent])

/-! ### C8: the Normalizer mutates the caller's frame -/

/-- C8 counterexample.  `clean_and_transform` assigns its computed columns
into the frame it was passed, so the caller's table is mutated: after the
call on a one-document frame carrying only `quantity`, the caller's table
has gained `price`, `last_restock`, `name` and `sku` cells — it no longer
equals the input. -/
theorem normalizer_mutation_cex :
    ct_final_arg 0 [{ quantity := some (.num 1) }]
      ≠ [{ quantity := some (.num 1) }] := by
  decide

/-- C8 amended.  `clean_and_transform` is a deterministic transformation of
the frame contents (modelled as a pure function of the current date and the
rows, total on all modelled data, so it never raises on malformed stored
values), and an empty frame is returned unchanged before any column
assignment; but it is not free of side effects: on any input the caller's
frame afterwards holds the transformed rows — same row count, every row now
carrying `quantity`, `price`, `last_restock`, `name` and `sku` cells — so a
nonempty input lacking any of those keys has been mutated. -/
theorem normalizer_mutation_amended (today : ℤ) (docs : List RawDoc) :
    (docs = [] → ct_final_arg today docs = docs) ∧
    (ct_final_arg today docs).length = docs.length ∧
    ∀ d ∈ ct_final_arg today docs,
      d.quantity.isSome ∧ d.price.isSome ∧ d.last_restock.isSome ∧
        d.name.isSome ∧ d.sku.isSome := by
  refine ⟨fun h => by simp [h, ct_final_arg, clean_and_transform], ?_, ?_⟩
  · simp [ct_final_arg, clean_and_transform]
  · intro d hd
    rcases List.mem_map.mp hd with ⟨r, _, rfl⟩
    refine ⟨by simp [rowToDoc], by simp [rowToDoc], ?_, ?_, ?_⟩
    · rcases r with ⟨_, _, _, _, _, _, lr, _, _, _⟩
      cases lr <;> rfl
    · exact rowToDoc_name_isSome r
    · exact rowToDoc_sku_isSome r

/-- Witness for C8 amended at the empty frame and a one-row frame. -/
theorem normalizer_mutation_amended_witness :
    ct_final_arg 0 ([] : List RawDoc) = [] ∧
    (ct_final_arg 0 [{ quantity := some (.num 1) }]).length = 1 := by
  constructor
  · exact (normalizer_mutation_amended 0 ([] : List RawDoc)).1 rfl
  · exact (normalizer_mutation_amended 0 [{ quantity := some (.num 1) }]).2.1

/-! ### C6: low-stock selection -/

/-- C6.  The low-stock table consists of rows drawn from the input with
`quantity <= threshold`, sorted ascending by quantity, truncated to the
first 20: its length is `min 20 (number of qualifying rows)`, it is sorted,
every row of it qualifies and comes from the input, and when at most 20
rows qualify it is exactly the qualifying rows (as a permutation — i.e. the
selection then contains precisely the rows with `quantity <= threshold`).
These properties do not depend on how `sort_values` breaks ties. -/
theorem low_stock_spec (thresh : ℤ) (rows : List Row) :
    (low_stock thresh rows).length =
        min 20 (rows.filter fun r => r.quantity ≤ thresh).length ∧
    List.Sorted qtyLE (low_stock thresh rows) ∧
    (∀ r ∈ low_stock thresh rows, r.quantity ≤ thresh ∧ r ∈ rows) ∧
    ((rows.filter fun r => r.quantity ≤ thresh).length ≤ 20 →
      (low_stock thresh rows).Perm (rows.filter fun r => r.quantity ≤ thresh)) := by
  have hperm := List.perm_insertionSort qtyLE (rows.filter fun r => r.quantity ≤ thresh)
  refine ⟨?_, ?_, ?_, ?_⟩
  · rw [low_stock, List.length_take, hperm.length_eq]
  · exact (List.sorted_insertionSort qtyLE _).sublist (List.take_sublist _ _)
  · intro r hr
    have h1 : r ∈ List.insertionSort qtyLE (rows.filter fun r => r.quantity ≤ thresh) :=
      List.take_subset _ _ hr
    have h2 : r ∈ rows.filter fun r => r.quantity ≤ thresh :=
      (List.mem_insertionSort qtyLE).mp h1
    have h3 := List.mem_filter.mp h2
    exact ⟨by simpa using h3.2, h3.1⟩
  · intro hlen
    rw [low_stock, List.take_of_length_le (by rw [hperm.length_eq]; exact hlen)]
    exact hperm

/-- Witness for C6 at a concrete three-row frame with threshold 30 (two rows
qualify, so the selection is exactly those two). -/
theorem low_stock_spec_witness :
    (low_stock 30 (clean_and_transform 0
        [{ quantity := some (.num 10) }, { quantity := some (.num 45) },
         { quantity := some (.num 5) }])).Perm
      ((clean_and_transform 0
        [{ quantity := some (.num 10) }, { quantity := some (.num 45) },
         { quantity := some (.num 5) }]).filter fun r => r.quantity ≤ 30) :=
  (low_stock_spec 30 (clean_and_transform 0
      [{ quantity := some (.num 10) }, { quantity := some (.num 45) },
       { quantity := some (.num 5) }])).2.2.2 (by decide)

/-! ### C1: category rollup conservation -/

lemma sum_map_ite_of_not_mem {M : Type} [AddCommMonoid M] (c : RVal) (x : M) :
    ∀ K : List RVal, c ∉ K → (K.map fun k => if c = k then x else 0).sum = 0
  | [], _ => rfl
  | k :: K, h => by
      have hck : ¬ c = k := fun e => h (by rw [e]; exact List.mem_cons_self k K)
      have hK : c ∉ K := fun m => h (List.mem_cons_of_mem _ m)
      simp only [List.map_cons, List.sum_cons, if_neg hck,
        sum_map_ite_of_not_mem c x K hK, zero_add]

lemma sum_map_ite_of_mem {M : Type} [AddCommMonoid M] (c : RVal) (x : M) :
    ∀ K : List RVal, K.Nodup → c ∈ K →
      (K.map fun k => if c = k then x else 0).sum = x
  | [], _, hm => absurd hm (List.not_mem_nil c)
  | k :: K, hnd, hm => by
      rcases List.nodup_cons.mp hnd with ⟨hkK, hndK⟩
      by_cases hck : c = k
      · subst hck
        simp [sum_map_ite_of_not_mem c x K hkK]
      · have hcK : c ∈ K := by
          rcases List.mem_cons.mp hm with h | h
          · exact absurd h hck
          · exact h
        simp only [List.map_cons, List.sum_cons, if_neg hck,
          sum_map_ite_of_mem c x K hndK hcK, zero_add]

/-- Summing a function over the groupby fibers of a duplicate-free key list
covering every non-NaN category equals summing it over the rows whose
category is non-NaN; rows with a NaN category fall in no fiber. -/
lemma sum_fiber {M : Type} [AddCommMonoid M] (f : Row → M) :
    ∀ (l : List Row) (K : List RVal), K.Nodup →
      (∀ r ∈ l, ∀ c, r.category = some c → c ∈ K) →
      (K.map fun k => ((l.filter fun r => r.category = some k).map f).sum).sum
        = ((l.filter fun r => r.category.isSome).map f).sum
  | [], K, _, _ => by simp
  | r :: t, K, hnd, hcov => by
      have ht : ∀ r' ∈ t, ∀ c, r'.category = some c → c ∈ K :=
        fun r' hr' => hcov r' (List.mem_cons_of_mem _ hr')
      have hmapeq :
          (K.map fun k =>
              (((r :: t).filter fun r' => r'.category = some k).map f).sum)
            = K.map fun k => (if r.category = some k then f r else 0)
                + ((t.filter fun r' => r'.category = some k).map f).sum := by
        refine List.map_congr_left fun k _ => ?_
        by_cases h : r.category = some k
        · simp [List.filter_cons, h]
        · simp [List.filter_cons, h]
      rw [hmapeq, List.sum_map_add, sum_fiber f t K hnd ht]
      cases hc : r.category with
      | none =>
          have h0 : (K.map fun k => if (none : Option RVal) = some k then f r else 0)
              = K.map fun _ => (0 : M) :=
            List.map_congr_left fun k _ => by simp
          rw [h0]
          simp [List.filter_cons, hc]
      | some c =>
          have h1 : (K.map fun k => if some c = some k then f r else 0)
              = K.map fun k => if c = k then f r else 0 :=
            List.map_congr_left fun k _ => by simp
          rw [h1, sum_map_ite_of_mem c (f r) K hnd
            (hcov r (List.mem_cons_self r t) c hc)]
          simp [List.filter_cons, hc]

/-- C1 counterexample.  pandas `groupby` keeps its default `dropna=True`:
a row with a missing category joins no group at all (it is *not* grouped
under an empty-string key), so with one categorised row of quantity 1 and
one uncategorised row of quantity 2 the groups' `total_qty` sum to 1 while
the frame's quantities sum to 3. -/
theorem catAgg_conservation_cex :
    ((cat_agg (clean_and_transform 0
        [{ category := some (.str "A"), quantity := some (.num 1) },
         { quantity := some (.num 2) }])).map CatGroup.total_qty).sum
      ≠ ((clean_and_transform 0
        [{ category := some (.str "A"), quantity := some (.num 1) },
         { quantity := some (.num 2) }]).map Row.quantity).sum := by
  decide

/-- C1 amended.  Rollup conservation holds over the rows that carry a
category: for every input frame, the sum of the groups' `total_qty` (resp.
`total_value`) equals the sum of `quantity` (resp. `value`) over the rows
whose category cell is not NaN; rows with a missing category are dropped by
the grouping and counted in no group. -/
theorem catAgg_conservation_present (today : ℤ) (docs : List RawDoc) :
    ((cat_agg (clean_and_transform today docs)).map CatGroup.total_qty).sum
      = (((clean_and_transform today docs).filter
          fun r => r.category.isSome).map Row.quantity).sum ∧
    ((cat_agg (clean_and_transform today docs)).map CatGroup.total_value).sum
      = (((clean_and_transform today docs).filter
          fun r => r.category.isSome).map Row.value).sum := by
  have hcov : ∀ r ∈ clean_and_transform today docs, ∀ c, r.category = some c →
      c ∈ ((clean_and_transform today docs).filterMap Row.category).dedup :=
    fun r hr c hc =>
      List.mem_dedup.mpr (List.mem_filterMap.mpr ⟨r, hr, by rw [hc]⟩)
  constructor
  · rw [cat_agg, List.map_map]
    exact sum_fiber Row.quantity (clean_and_transform today docs) _
      (List.nodup_dedup _) hcov
  · rw [cat_agg, List.map_map]
    exact sum_fiber Row.value (clean_and_transform today docs) _
      (List.nodup_dedup _) hcov

/-! ### C9: CSV export headers -/

lemma mem_assignCol_self (l : List Col) (c : Col) : c ∈ assignCol l c := by
  unfold assignCol
  by_cases h : c ∈ l
  · rwa [if_pos h]
  · rw [if_neg h]
    exact List.mem_append_right l (List.mem_singleton.mpr rfl)

lemma mem_assignCol_of_mem (l : List Col) (c c' : Col) (h : c ∈ l) :
    c ∈ assignCol l c' := by
  unfold assignCol
  by_cases h' : c' ∈ l
  · rwa [if_pos h']
  · rw [if_neg h']
    exact List.mem_append_left _ h

lemma mem_ctCols_derived (docs : List RawDoc) (h : docs ≠ []) :
    Col.value ∈ ctCols docs ∧ Col.days_since_restock ∈ ctCols docs := by
  have hne : docs.isEmpty = false := by
    rcases docs with _ | _
    · exact absurd rfl h
    · rfl
  simp only [ctCols, hne, Bool.false_eq_true, if_false, List.foldl_cons,
    List.foldl_nil]
  exact ⟨mem_assignCol_of_mem _ _ _ (mem_assignCol_self _ _),
    mem_assignCol_self _ _⟩

/-- C9 counterexample.  The full-inventory export (lines 249-251) serializes
the whole cleaned frame without restricting or reordering its columns, so
for a fully-populated document its header is the frame's own column order
(`sku, name, category, quantity, price, supplier, last_restock, id, value,
days_since_restock`) — not the fixed display order, which places `value`
after `price` and `id` last. -/
theorem export_header_cex :
    fullExportHeader
        [{ sku := some (.str "SKU1001"), name := some (.str "Classic T-Shirt"),
           category := some (.str "Apparel"), quantity := some (.num 120),
           price := some (.num 399), supplier := some (.str "Textile Co"),
           last_restock := some (.date 0), id := some (.str "65a0") }]
      ≠ some (displayCols
        [{ sku := some (.str "SKU1001"), name := some (.str "Classic T-Shirt"),
           category := some (.str "Apparel"), quantity := some (.num 120),
           price := some (.num 399), supplier := some (.str "Textile Co"),
           last_restock := some (.date 0), id := some (.str "65a0") }]) := by
  decide

/-- C9 amended.  The *filtered-view* export does have a header in the fixed
order restricted to the present columns: its header is exactly
`display_cols`, which is a sublist of the fixed order, contains a column
iff that column is in the fixed order and in the cleaned frame, and always
includes the derived `value` and `days_since_restock` columns.  The
full-inventory export instead uses the frame's own column order (see the
counterexample), so the claim holds only for the filtered export. -/
theorem export_header_amended (docs : List RawDoc) (h : docs ≠ []) :
    filteredExportHeader docs = some (displayCols docs) ∧
    (displayCols docs).Sublist fixedColumnOrder ∧
    (∀ c, c ∈ displayCols docs ↔ c ∈ fixedColumnOrder ∧ c ∈ ctCols docs) ∧
    Col.value ∈ displayCols docs ∧
    Col.days_since_restock ∈ displayCols docs := by
  have hlen : docs.length ≠ 0 := by
    intro h0
    exact h (List.length_eq_zero.mp h0)
  refine ⟨?_, ?_, ?_, ?_, ?_⟩
  · simp [filteredExportHeader, exportHeader, hlen]
  · exact List.filter_sublist _
  · intro c
    simp [displayCols]
  · exact List.mem_filter.mpr
      ⟨by decide, by simpa using (mem_ctCols_derived docs h).1⟩
  · exact List.mem_filter.mpr
      ⟨by decide, by simpa using (mem_ctCols_derived docs h).2⟩

/-- Witness for C9 amended: for a concrete one-document frame the
filtered-view export's header is exactly `display_cols`. -/
theorem export_header_amended_witness :
    filteredExportHeader [{ sku := some (.str "SKU1001") }]
      = some (displayCols [{ sku := some (.str "SKU1001") }]) :=
  (export_header_amended [{ sku := some (.str "SKU1001") }] (by simp)).1

end InventoryApp

